import Mathlib

/-!
Verification development for the embedding-initialization module of the
repository (files `backend/open_webui/retrieval/fallback_embeddings.py`,
`backend/open_webui/retrieval/initialize.py`,
`backend/open_webui/retrieval/st_patch.py`).

The Python source is shallowly embedded: pure helpers become Lean
functions, the mutable `request.app.state` slots become an explicit
`AppState` record threaded through the functions, calls to external
collaborators (`get_ef`, `get_embedding_function`, `requests.post`,
module imports) are parameters supplied through environment records, and
Python exceptions become `Except` results.  The library routines the
source calls by name — `hashlib.sha256` and numpy's legacy
`RandomState` (MT19937) generator — are embedded concretely from their
published algorithms, so the whole draw pipeline is executable.
-/

set_option maxRecDepth 10000

/-! ### SHA-256 (embedding of `hashlib.sha256`, used by `_hash_to_vector`) -/

/-- 32-bit word mask. -/
def word32 : Nat := 4294967296

/-- Right rotation of a 32-bit word. -/
def rotr (x n : Nat) : Nat := ((x >>> n) ||| (x <<< (32 - n))) % word32

/-- SHA-256 `Ch` function. -/
def shaCh (x y z : Nat) : Nat := (x &&& y) ^^^ ((x ^^^ (word32 - 1)) &&& z)

/-- SHA-256 `Maj` function. -/
def shaMaj (x y z : Nat) : Nat := (x &&& y) ^^^ (x &&& z) ^^^ (y &&& z)

/-- SHA-256 big sigma 0. -/
def bsig0 (x : Nat) : Nat := rotr x 2 ^^^ rotr x 13 ^^^ rotr x 22

/-- SHA-256 big sigma 1. -/
def bsig1 (x : Nat) : Nat := rotr x 6 ^^^ rotr x 11 ^^^ rotr x 25

/-- SHA-256 small sigma 0. -/
def ssig0 (x : Nat) : Nat := rotr x 7 ^^^ rotr x 18 ^^^ (x >>> 3)

/-- SHA-256 small sigma 1. -/
def ssig1 (x : Nat) : Nat := rotr x 17 ^^^ rotr x 19 ^^^ (x >>> 10)

/-- The 64 SHA-256 round constants (FIPS 180-4, in decimal). -/
def sha256K : List Nat :=
  [1116352408, 1899447441, 3049323471, 3921009573, 961987163,
   1508970993, 2453635748, 2870763221, 3624381080, 310598401,
   607225278, 1426881987, 1925078388, 2162078206, 2614888103,
   3248222580, 3835390401, 4022224774, 264347078, 604807628,
   770255983, 1249150122, 1555081692, 1996064986, 2554220882,
   2821834349, 2952996808, 3210313671, 3336571891, 3584528711,
   113926993, 338241895, 666307205, 773529912, 1294757372,
   1396182291, 1695183700, 1986661051, 2177026350, 2456956037,
   2730485921, 2820302411, 3259730800, 3345764771, 3516065817,
   3600352804, 4094571909, 275423344, 430227734, 506948616,
   659060556, 883997877, 958139571, 1322822218, 1537002063,
   1747873779, 1955562222, 2024104815, 2227730452, 2361852424,
   2428436474, 2756734187, 3204031479, 3329325298]

/-- The SHA-256 initial hash value (FIPS 180-4, in decimal). -/
def sha256H0 : List Nat :=
  [1779033703, 3144134277, 1013904242, 2773480762, 1359893119,
   2600822924, 528734635, 1541459225]

/-- Big-endian bytes of the 64-bit message length. -/
def be64 (n : Nat) : List Nat :=
  (List.range 8).map (fun i => n / 2 ^ (8 * (7 - i)) % 256)

/-- SHA-256 padding of a byte string: `0x80`, zeros, then the bit length. -/
def padBytes (msg : List Nat) : List Nat :=
  let L := msg.length
  let z := (120 - (L + 1) % 64) % 64
  msg ++ [128] ++ List.replicate z 0 ++ be64 (8 * L)

/-- Group big-endian bytes into 32-bit words. -/
def toWords : List Nat → List Nat
  | a :: b :: c :: d :: rest => (((a * 256 + b) * 256 + c) * 256 + d) :: toWords rest
  | _ => []

/-- Split a word list into 16-word blocks. -/
def toBlocks (l : List Nat) : List (List Nat) :=
  if h : l = [] then []
  else
    have : (l.drop 16).length < l.length := by
      have hl : 0 < l.length := List.length_pos.mpr h
      rw [List.length_drop]
      omega
    l.take 16 :: toBlocks (l.drop 16)
termination_by l.length

/-- One step of the message-schedule extension. -/
def scheduleStep (w : List Nat) : List Nat :=
  w ++ [(ssig1 (w.getD (w.length - 2) 0) + w.getD (w.length - 7) 0 +
         ssig0 (w.getD (w.length - 15) 0) + w.getD (w.length - 16) 0) % word32]

/-- Extend a 16-word block to the 64-word message schedule. -/
def schedule (w : List Nat) : List Nat :=
  (List.range 48).foldl (fun acc _ => scheduleStep acc) w

/-- One SHA-256 compression round over the eight working registers. -/
def shaRound (regs : List Nat) (kw : Nat × Nat) : List Nat :=
  match regs with
  | [a, b, c, d, e, f, g, h] =>
    let t1 := (h + bsig1 e + shaCh e f g + kw.1 + kw.2) % word32
    let t2 := (bsig0 a + shaMaj a b c) % word32
    [(t1 + t2) % word32, a, b, c, (d + t1) % word32, e, f, g]
  | other => other

/-- Compress one 16-word block into the running hash state. -/
def compressBlock (hsh : List Nat) (block : List Nat) : List Nat :=
  let w := schedule block
  let final := (sha256K.zip w).foldl shaRound hsh
  (hsh.zip final).map (fun p => (p.1 + p.2) % word32)

/-- SHA-256 digest of a byte string, as the natural number that Python's
`int(hashlib.sha256(b).hexdigest(), 16)` denotes. -/
def sha256Bytes (msg : List Nat) : Nat :=
  ((toBlocks (toWords (padBytes msg))).foldl compressBlock sha256H0).foldl
    (fun acc w => acc * word32 + w) 0

/-- `int(hashlib.sha256(text.encode('utf-8')).hexdigest(), 16)`. -/
def sha256utf8 (text : String) : Nat :=
  sha256Bytes (text.toUTF8.toList.map (fun b => b.toNat))

/-! ### MT19937 (embedding of numpy's legacy `RandomState` generator) -/

/-- Initialize the 624-word Mersenne-Twister state from an integer seed;
this is `init_genrand`, which numpy's `RandomState(seed)` uses for a
scalar seed below `2^32`. -/
def mtInitAux (prev i : Nat) : Nat → List Nat
  | 0 => []
  | fuel + 1 =>
    let cur := (1812433253 * (prev ^^^ (prev >>> 30)) + i) % word32
    cur :: mtInitAux cur (i + 1) fuel

/-- The initial MT19937 state vector for a seed. -/
def mtInit (seed : Nat) : List Nat :=
  let m0 := seed % word32
  m0 :: mtInitAux m0 1 623

/-- One in-place update of the MT19937 twist loop at index `i`. -/
def twistStep (mt : List Nat) (i : Nat) : List Nat :=
  let y := (mt.getD i 0 &&& 0x80000000) ||| (mt.getD ((i + 1) % 624) 0 &&& 0x7fffffff)
  let v := mt.getD ((i + 397) % 624) 0 ^^^ (y >>> 1) ^^^
           (if y % 2 = 1 then 0x9908b0df else 0)
  mt.set i v

/-- The full MT19937 twist: regenerate all 624 state words in place. -/
def mtTwist (mt : List Nat) : List Nat :=
  (List.range 624).foldl twistStep mt

/-- MT19937 output tempering. -/
def temper (y0 : Nat) : Nat :=
  let y1 := y0 ^^^ (y0 >>> 11)
  let y2 := y1 ^^^ ((y1 <<< 7) &&& 0x9d2c5680)
  let y3 := y2 ^^^ ((y2 <<< 15) &&& 0xefc60000)
  y3 ^^^ (y3 >>> 18)

/-- First `n` 32-bit outputs of the generator starting from state `mt`
(with the internal index at the end of a block, as after seeding). -/
def mtOutGo (mt : List Nat) (n : Nat) : List Nat :=
  if n = 0 then []
  else
    let mt2 := mtTwist mt
    (mt2.map temper).take n ++ mtOutGo mt2 (n - 624)
termination_by n
decreasing_by omega

/-- First `n` outputs of `RandomState(seed)`'s underlying generator. -/
def mtOutputs (seed n : Nat) : List Nat :=
  mtOutGo (mtInit seed) n

/-- Combine consecutive 32-bit outputs into the 53-bit numerators of
numpy's `random_sample` doubles: `(a >> 5) * 2^26 + (b >> 6)`. -/
def pairKs : List Nat → List Nat
  | a :: b :: rest => ((a >>> 5) * 67108864 + (b >>> 6)) :: pairKs rest
  | _ => []

/-- The 53-bit numerators of the first `n` doubles drawn by
`RandomState(seed).rand(n)`; each double is `k / 2^53`. -/
def randKs (seed n : Nat) : List Nat :=
  pairKs (mtOutputs seed (2 * n))

/-- Round the double `k / 2^53` (with `0 ≤ k < 2^53`) to the nearest
`float32` value (ties to even), as `.astype(np.float32)` does; the
result is returned as the exact rational the float denotes. -/
def f32OfK (k : Nat) : ℚ :=
  if k = 0 then 0
  else
    let b := Nat.log2 k
    if b ≤ 23 then (k : ℚ) / 2 ^ 53
    else
      let sh := b - 23
      let q := k / 2 ^ sh
      let r := k % 2 ^ sh
      let half := 2 ^ (sh - 1)
      let q2 := if half < r ∨ (r = half ∧ q % 2 = 1) then q + 1 else q
      (q2 : ℚ) * 2 ^ sh / 2 ^ 53

/-- `rng.rand(n).astype(np.float32)` for `rng = RandomState(seed)`:
the `n` uniform draws in `[0,1)`, each rounded to 32-bit precision. -/
def rawDraw (seed n : Nat) : List ℚ :=
  (randKs seed n).map f32OfK

/-! ### The fallback embedding model (`fallback_embeddings.py`) -/

/-- Squared Euclidean norm of the drawn vector; `np.linalg.norm` is its
square root. -/
def normSq (v : List ℚ) : ℚ :=
  (v.map (fun x => x * x)).sum

/-- Lines 63–68 of `fallback_embeddings.py`: divide by the Euclidean
norm only when it is positive, otherwise return the vector as drawn.
The guard `0 < normSq v` holds exactly when the norm
`Real.sqrt (normSq v)` is positive. -/
noncomputable def normalizeVec (v : List ℚ) : List ℝ :=
  if 0 < normSq v then
    v.map (fun x : ℚ => (x : ℝ) / Real.sqrt ((normSq v : ℝ)))
  else
    v.map (fun x : ℚ => (x : ℝ))

/-- The `FallbackEmbeddingModel` class: a name and the fixed dimension
384 set in `__init__`. -/
structure FallbackEmbeddingModel where
  model_name : String
  embedding_size : Nat

/-- `get_fallback_embedding_model()` — constructs the model with the
default name and `embedding_size = 384`. -/
def get_fallback_embedding_model : FallbackEmbeddingModel :=
  ⟨"fallback/text-hash-embedding", 384⟩

/-- `FallbackEmbeddingModel._hash_to_vector`: seed from the SHA-256
digest modulo `10^8`, draw `embedding_size` uniform 32-bit floats,
normalize. -/
noncomputable def FallbackEmbeddingModel.hash_to_vector
    (M : FallbackEmbeddingModel) (text : String) : List ℝ :=
  let text_hash := sha256utf8 text % 10 ^ 8
  normalizeVec (rawDraw text_hash M.embedding_size)

/-- The `Union[str, List[str]]` argument of `encode`. -/
inductive TextInput where
  | str (s : String)
  | list (l : List String)

/-- The `Union[List[float], List[List[float]]]` result of `encode`. -/
inductive EncodeOutput where
  | vec (v : List ℝ)
  | vecs (vs : List (List ℝ))

/-- `FallbackEmbeddingModel.encode`: a single string maps to a single
vector, a list of strings maps elementwise to vectors. -/
noncomputable def FallbackEmbeddingModel.encode
    (M : FallbackEmbeddingModel) : TextInput → EncodeOutput
  | .str s => .vec (M.hash_to_vector s)
  | .list l => .vecs (l.map M.hash_to_vector)

/-- Modelled from the spec, for comparison with the source definition
(§4.1 steps 1–4): digest, reduce modulo `10^8`, draw 384 uniform 32-bit
floats, normalize unless the norm is zero. -/
noncomputable def spec_hash_embed (t : String) : List ℝ :=
  let digest := sha256utf8 t
  let seed := digest % 10 ^ 8
  let draws := rawDraw seed 384
  if 0 < normSq draws then
    draws.map (fun x : ℚ => (x : ℝ) / Real.sqrt ((normSq draws : ℝ)))
  else
    draws.map (fun x : ℚ => (x : ℝ))

/-! ### Length facts about the draw pipeline -/

theorem mtInitAux_length (fuel : Nat) : ∀ prev i, (mtInitAux prev i fuel).length = fuel := by
  induction fuel with
  | zero => intro prev i; rfl
  | succ n ih => intro prev i; simp [mtInitAux, ih]

theorem mtInit_length (seed : Nat) : (mtInit seed).length = 624 := by
  simp [mtInit, mtInitAux_length]

theorem foldl_twistStep_length (l : List Nat) :
    ∀ mt : List Nat, (l.foldl twistStep mt).length = mt.length := by
  induction l with
  | nil => intro mt; rfl
  | cons a t ih => intro mt; simp [List.foldl_cons, ih, twistStep, List.length_set]

theorem mtTwist_length (mt : List Nat) : (mtTwist mt).length = mt.length :=
  foldl_twistStep_length _ mt

theorem mtOutGo_length (n : Nat) :
    ∀ mt : List Nat, mt.length = 624 → (mtOutGo mt n).length = n := by
  induction n using Nat.strong_induction_on with
  | _ n ih =>
    intro mt h
    rw [mtOutGo]
    split
    · simp [*]
    · rename_i hn
      have h2 : (mtTwist mt).length = 624 := by rw [mtTwist_length, h]
      rw [List.length_append, List.length_take, List.length_map, h2,
          ih (n - 624) (by omega) _ h2]
      omega

theorem pairKs_length : ∀ l : List Nat, (pairKs l).length = l.length / 2
  | [] => by simp [pairKs]
  | [a] => by simp [pairKs]
  | a :: b :: rest => by
      simp only [pairKs, List.length_cons, pairKs_length rest]
      omega

theorem randKs_length (seed n : Nat) : (randKs seed n).length = n := by
  rw [randKs, pairKs_length, mtOutputs, mtOutGo_length _ _ (mtInit_length seed)]
  omega

theorem rawDraw_length (seed n : Nat) : (rawDraw seed n).length = n := by
  rw [rawDraw, List.length_map, randKs_length]

theorem normalizeVec_length (v : List ℚ) : (normalizeVec v).length = v.length := by
  unfold normalizeVec
  split
  · rw [List.length_map]
  · rw [List.length_map]

theorem hash_to_vector_length (M : FallbackEmbeddingModel) (t : String) :
    (M.hash_to_vector t).length = M.embedding_size := by
  unfold FallbackEmbeddingModel.hash_to_vector
  rw [normalizeVec_length, rawDraw_length]

/-! ### Claims about the hash embedder -/

/-- C1: `FallbackEmbeddingModel.encode` on a single string is computed by
taking the SHA-256 digest of the UTF-8 encoding, reducing it modulo
`10^8` to a seed, drawing 384 uniform 32-bit floats from the seeded
generator and normalizing (the spec-side pipeline `spec_hash_embed`);
consequently two calls with the same text return identical vectors. -/
theorem encode_matches_spec_pipeline_and_deterministic :
    (∀ t : String,
      get_fallback_embedding_model.encode (.str t) = .vec (spec_hash_embed t)) ∧
    (∀ t₁ t₂ : String, t₁ = t₂ →
      get_fallback_embedding_model.encode (.str t₁) =
        get_fallback_embedding_model.encode (.str t₂)) := by
  constructor
  · intro t
    rfl
  · intro t₁ t₂ h
    rw [h]

/-- Witness for C1 at the concrete text `"hello world"`. -/
theorem encode_matches_spec_pipeline_and_deterministic_witness :
    get_fallback_embedding_model.encode (.str "hello world") =
      get_fallback_embedding_model.encode (.str "hello world") :=
  encode_matches_spec_pipeline_and_deterministic.2 "hello world" "hello world" rfl

/-- C2: a single string yields a single vector of exactly 384 floats; a
list of `n` strings yields `n` vectors in input order, the `i`-th output
being the encoding of the `i`-th input string. -/
theorem encode_shape_and_order :
    (∀ t : String, get_fallback_embedding_model.encode (.str t) =
        .vec (get_fallback_embedding_model.hash_to_vector t)) ∧
    (∀ t : String, (get_fallback_embedding_model.hash_to_vector t).length = 384) ∧
    (∀ l : List String, get_fallback_embedding_model.encode (.list l) =
        .vecs (l.map get_fallback_embedding_model.hash_to_vector)) ∧
    (∀ l : List String,
      (l.map get_fallback_embedding_model.hash_to_vector).length = l.length) ∧
    (∀ (l : List String) (i : Nat), i < l.length →
      (l.map get_fallback_embedding_model.hash_to_vector).getD i [] =
        get_fallback_embedding_model.hash_to_vector (l.getD i "")) := by
  refine ⟨fun t => rfl, fun t => hash_to_vector_length _ t, fun l => rfl,
    fun l => List.length_map l _, fun l i h => ?_⟩
  rw [List.getD_eq_getElem?_getD, List.getD_eq_getElem?_getD, List.getElem?_map,
      List.getElem?_eq_getElem h]
  rfl

/-- Witness for C2 at the concrete list `["alpha", "beta"]`, index 1. -/
theorem encode_shape_and_order_witness :
    1 < (["alpha", "beta"] : List String).length ∧
    ((["alpha", "beta"] : List String).map
        get_fallback_embedding_model.hash_to_vector).getD 1 [] =
      get_fallback_embedding_model.hash_to_vector
        ((["alpha", "beta"] : List String).getD 1 "") :=
  ⟨by decide, encode_shape_and_order.2.2.2.2 ["alpha", "beta"] 1 (by decide)⟩

/-- C6: in `_hash_to_vector` the division by the Euclidean norm happens
only when the norm is strictly positive; a zero norm returns the drawn
vector unnormalized; `encode` is a total function of the text. -/
theorem normalization_guarded_by_positive_norm :
    (∀ v : List ℚ, 0 < Real.sqrt ((normSq v : ℝ)) →
      normalizeVec v = v.map (fun x : ℚ => (x : ℝ) / Real.sqrt ((normSq v : ℝ)))) ∧
    (∀ v : List ℚ, Real.sqrt ((normSq v : ℝ)) = 0 →
      normalizeVec v = v.map (fun x : ℚ => (x : ℝ))) ∧
    (∀ (M : FallbackEmbeddingModel) (t : String),
      M.hash_to_vector t =
        normalizeVec (rawDraw (sha256utf8 t % 10 ^ 8) M.embedding_size)) ∧
    (∀ t : String, ∃ v, get_fallback_embedding_model.encode (.str t) = .vec v) := by
  refine ⟨fun v h => ?_, fun v h => ?_, fun M t => rfl, fun t => ⟨_, rfl⟩⟩
  · have hq : 0 < normSq v := by exact_mod_cast Real.sqrt_pos.mp h
    unfold normalizeVec
    rw [if_pos hq]
  · have hq : ¬ 0 < normSq v := by
      intro hc
      have hr : (0 : ℝ) < (normSq v : ℝ) := by exact_mod_cast hc
      exact absurd h (ne_of_gt (Real.sqrt_pos.mpr hr))
    unfold normalizeVec
    rw [if_neg hq]

/-- Witness for C6 at the concrete vectors `[1]` (positive norm) and
`[0]` (zero norm). -/
theorem normalization_guarded_by_positive_norm_witness :
    normalizeVec [(1 : ℚ)] =
      [(1 : ℚ)].map (fun x : ℚ => (x : ℝ) / Real.sqrt ((normSq [(1 : ℚ)] : ℝ))) ∧
    normalizeVec [(0 : ℚ)] = [(0 : ℚ)].map (fun x : ℚ => (x : ℝ)) := by
  constructor
  · apply normalization_guarded_by_positive_norm.1
    have h1 : ((normSq [(1 : ℚ)] : ℚ) : ℝ) = 1 := by norm_num [normSq]
    rw [h1, Real.sqrt_one]
    exact one_pos
  · apply normalization_guarded_by_positive_norm.2.1
    have h0 : ((normSq [(0 : ℚ)] : ℚ) : ℝ) = 0 := by norm_num [normSq]
    rw [h0, Real.sqrt_zero]

/-! ### `ensure_embedding_function` (`initialize.py`)

The mutable slots `request.app.state.ef` and
`request.app.state.EMBEDDING_FUNCTION` become an `AppState` record; the
external collaborators (`patch_sentence_transformers` together with
its import, `get_ef`, `get_fallback_embedding_model` together with
its import, `get_embedding_function`) become `Except`-valued fields of an
`InitEnv` record, `.error ()` meaning the call raised.  The run result
is `.ok (finalState, trace)` when the Python function returns `True`
(the trace lists the collaborator calls made, in order) and
`.error 500` when it raises `HTTPException(500)`. -/

/-- Opaque stand-ins for embedding models and embedding functions. -/
abbrev EmbModel := Nat

/-- Opaque stand-ins for the wrapped embedding callables. -/
abbrev EmbFunc := Nat

/-- One collaborator call made by `ensure_embedding_function`. -/
inductive Ev where
  | patch
  | getEf
  | fallbackModel
  | wrap
deriving DecidableEq

/-- The two `request.app.state` slots the initializer reads and writes. -/
structure AppState where
  ef : Option EmbModel
  embeddingFunction : Option EmbFunc
deriving DecidableEq

/-- Outcomes of the external collaborators and the configuration the
initializer reads. -/
structure InitEnv where
  engine : String
  patchResult : Except Unit Bool
  getEfResult : Except Unit (Option EmbModel)
  fallbackModelResult : Except Unit EmbModel
  getEmbeddingFunctionResult : EmbModel → Except Unit EmbFunc
  hasEncode : EmbModel → Bool
  directWrap : EmbModel → EmbFunc
  fallbackWrap : EmbModel → EmbFunc

/-- Result of the body of the outer `try`: either it runs to the final
`return True` or it raises; both carry the mutated state and the calls
made so far. -/
inductive Run where
  | ok (s : AppState) (tr : List Ev)
  | raised (s : AppState) (tr : List Ev)

/-- The trace component of a `Run`. -/
def Run.trace : Run → List Ev
  | .ok _ tr => tr
  | .raised _ tr => tr

/-- Lines 69–76: if `EMBEDDING_FUNCTION` is still `None`, construct the
fallback model and wrap it directly; a raise here propagates.  The
scrutinee (the current value of the `EMBEDDING_FUNCTION` slot) is taken
as an explicit argument `o`. -/
def mainBody4go (env : InitEnv) (o : Option EmbFunc) (s : AppState)
    (tr : List Ev) : Run :=
  match o with
  | some _ => .ok s tr
  | none =>
    match env.fallbackModelResult with
    | .ok m => .ok { s with embeddingFunction := some (env.fallbackWrap m) }
        (tr ++ [.fallbackModel])
    | .error _ => .raised s (tr ++ [.fallbackModel])

/-- Lines 69–76 applied to the state's own slot. -/
def mainBody4 (env : InitEnv) (s : AppState) (tr : List Ev) : Run :=
  mainBody4go env s.embeddingFunction s tr

/-- Lines 41–67: if `ef` is available, wrap it via
`get_embedding_function`; on a raise there, fall back to a direct
wrapper when the model has an `encode` attribute. -/
def mainBody3go (env : InitEnv) (o : Option EmbModel) (s : AppState)
    (tr : List Ev) : Run :=
  match o with
  | none => mainBody4 env s tr
  | some m =>
    match env.getEmbeddingFunctionResult m with
    | .ok f => mainBody4 env { s with embeddingFunction := some f } (tr ++ [.wrap])
    | .error _ =>
      if env.hasEncode m then
        mainBody4 env { s with embeddingFunction := some (env.directWrap m) }
          (tr ++ [.wrap])
      else
        mainBody4 env s (tr ++ [.wrap])

/-- Lines 41–67 applied to the state's own slot. -/
def mainBody3 (env : InitEnv) (s : AppState) (tr : List Ev) : Run :=
  mainBody3go env s.ef s tr

/-- Lines 22–39: if `ef` is `None`, call `get_ef`; when that returns
`None`, try the fallback model, swallowing its failure. -/
def mainBody2go (env : InitEnv) (o : Option EmbModel) (s : AppState)
    (tr : List Ev) : Run :=
  match o with
  | some _ => mainBody3 env s tr
  | none =>
    match env.getEfResult with
    | .error _ => .raised s (tr ++ [.getEf])
    | .ok (some m) => mainBody3 env { s with ef := some m } (tr ++ [.getEf])
    | .ok none =>
      match env.fallbackModelResult with
      | .ok m => mainBody3 env { s with ef := some m } (tr ++ [.getEf, .fallbackModel])
      | .error _ => mainBody3 env s (tr ++ [.getEf, .fallbackModel])

/-- Lines 22–39 applied to the state's own slot. -/
def mainBody2 (env : InitEnv) (s : AppState) (tr : List Ev) : Run :=
  mainBody2go env s.ef s tr

/-- Lines 16–79, the body of the outer `try`: apply the patch shim when
the engine is the empty string (the local path), then initialize the
two slots. -/
def mainBody (env : InitEnv) (s : AppState) : Run :=
  if env.engine = "" then
    match env.patchResult with
    | .error _ => .raised s [.patch]
    | .ok _ => mainBody2 env s [.patch]
  else
    mainBody2 env s []

/-- `ensure_embedding_function` (lines 9–98): skip everything when both
slots are populated; otherwise run the body, and on a raise build the
minimal fallback function, raising `HTTPException(500)` only when even
that construction raises. -/
def ensure_embedding_function (env : InitEnv) (s : AppState) :
    Except Nat (AppState × List Ev) :=
  if s.embeddingFunction = none ∨ s.ef = none then
    match mainBody env s with
    | .ok s2 tr => .ok (s2, tr)
    | .raised s2 tr =>
      match env.fallbackModelResult with
      | .ok m => .ok ({ s2 with embeddingFunction := some (env.fallbackWrap m) },
          tr ++ [.fallbackModel])
      | .error _ => .error 500
  else
    .ok (s, [])

/-- The outer `try` body raised. -/
def mainRaised (env : InitEnv) (s : AppState) : Prop :=
  ∃ s2 tr, mainBody env s = .raised s2 tr

/-! ### Trace lemmas for the initializer -/

theorem mainBody4go_trace (env : InitEnv) (o : Option EmbFunc) (s : AppState)
    (tr : List Ev) : ∃ u, (mainBody4go env o s tr).trace = tr ++ u := by
  cases o with
  | some f => exact ⟨[], by simp [mainBody4go, Run.trace]⟩
  | none =>
    show ∃ u, (match env.fallbackModelResult with
      | Except.ok m => Run.ok { s with embeddingFunction := some (env.fallbackWrap m) }
          (tr ++ [Ev.fallbackModel])
      | Except.error _ => Run.raised s (tr ++ [Ev.fallbackModel])).trace = tr ++ u
    split
    · exact ⟨[.fallbackModel], rfl⟩
    · exact ⟨[.fallbackModel], rfl⟩

theorem mainBody4_trace (env : InitEnv) (s : AppState) (tr : List Ev) :
    ∃ u, (mainBody4 env s tr).trace = tr ++ u :=
  mainBody4go_trace env s.embeddingFunction s tr

theorem mainBody3go_trace (env : InitEnv) (o : Option EmbModel) (s : AppState)
    (tr : List Ev) : ∃ u, (mainBody3go env o s tr).trace = tr ++ u := by
  cases o with
  | none => exact mainBody4_trace env s tr
  | some m =>
    show ∃ u, (match env.getEmbeddingFunctionResult m with
      | Except.ok f => mainBody4 env { s with embeddingFunction := some f }
          (tr ++ [Ev.wrap])
      | Except.error _ =>
        if env.hasEncode m then
          mainBody4 env { s with embeddingFunction := some (env.directWrap m) }
            (tr ++ [Ev.wrap])
        else
          mainBody4 env s (tr ++ [Ev.wrap])).trace = tr ++ u
    split
    · obtain ⟨u, hu⟩ := mainBody4_trace env _ (tr ++ [.wrap])
      exact ⟨.wrap :: u, hu.trans (by rw [List.append_assoc]; rfl)⟩
    · split
      · obtain ⟨u, hu⟩ := mainBody4_trace env _ (tr ++ [.wrap])
        exact ⟨.wrap :: u, hu.trans (by rw [List.append_assoc]; rfl)⟩
      · obtain ⟨u, hu⟩ := mainBody4_trace env _ (tr ++ [.wrap])
        exact ⟨.wrap :: u, hu.trans (by rw [List.append_assoc]; rfl)⟩

theorem mainBody3_trace (env : InitEnv) (s : AppState) (tr : List Ev) :
    ∃ u, (mainBody3 env s tr).trace = tr ++ u :=
  mainBody3go_trace env s.ef s tr

theorem mainBody3go_wrap (env : InitEnv) (m : EmbModel) (s : AppState)
    (tr : List Ev) :
    ∃ u, (mainBody3go env (some m) s tr).trace = tr ++ .wrap :: u := by
  show ∃ u, (match env.getEmbeddingFunctionResult m with
    | Except.ok f => mainBody4 env { s with embeddingFunction := some f }
        (tr ++ [Ev.wrap])
    | Except.error _ =>
      if env.hasEncode m then
        mainBody4 env { s with embeddingFunction := some (env.directWrap m) }
          (tr ++ [Ev.wrap])
      else
        mainBody4 env s (tr ++ [Ev.wrap])).trace = tr ++ Ev.wrap :: u
  split
  · obtain ⟨u, hu⟩ := mainBody4_trace env _ (tr ++ [.wrap])
    exact ⟨u, hu.trans (by rw [List.append_assoc]; rfl)⟩
  · split
    · obtain ⟨u, hu⟩ := mainBody4_trace env _ (tr ++ [.wrap])
      exact ⟨u, hu.trans (by rw [List.append_assoc]; rfl)⟩
    · obtain ⟨u, hu⟩ := mainBody4_trace env _ (tr ++ [.wrap])
      exact ⟨u, hu.trans (by rw [List.append_assoc]; rfl)⟩

theorem mainBody3_wrap (env : InitEnv) (s : AppState) (tr : List Ev)
    (m : EmbModel) (h : s.ef = some m) :
    ∃ u, (mainBody3 env s tr).trace = tr ++ .wrap :: u := by
  rw [mainBody3, h]
  exact mainBody3go_wrap env m s tr

theorem mainBody2go_getEf (env : InitEnv) (s : AppState) (tr : List Ev) :
    ∃ u, (mainBody2go env none s tr).trace = tr ++ .getEf :: u := by
  show ∃ u, (match env.getEfResult with
    | Except.error _ => Run.raised s (tr ++ [Ev.getEf])
    | Except.ok (some m) => mainBody3 env { s with ef := some m } (tr ++ [Ev.getEf])
    | Except.ok none =>
      match env.fallbackModelResult with
      | Except.ok m => mainBody3 env { s with ef := some m }
          (tr ++ [Ev.getEf, Ev.fallbackModel])
      | Except.error _ => mainBody3 env s
          (tr ++ [Ev.getEf, Ev.fallbackModel])).trace =
    tr ++ Ev.getEf :: u
  split
  · exact ⟨[], rfl⟩
  · obtain ⟨u, hu⟩ := mainBody3_trace env _ (tr ++ [.getEf])
    exact ⟨u, hu.trans (by rw [List.append_assoc]; rfl)⟩
  · split
    · obtain ⟨u, hu⟩ := mainBody3_trace env _ (tr ++ [.getEf, .fallbackModel])
      exact ⟨.fallbackModel :: u, hu.trans (by rw [List.append_assoc]; rfl)⟩
    · obtain ⟨u, hu⟩ := mainBody3_trace env _ (tr ++ [.getEf, .fallbackModel])
      exact ⟨.fallbackModel :: u, hu.trans (by rw [List.append_assoc]; rfl)⟩

theorem mainBody2_getEf (env : InitEnv) (s : AppState) (tr : List Ev)
    (h : s.ef = none) :
    ∃ u, (mainBody2 env s tr).trace = tr ++ .getEf :: u := by
  rw [mainBody2, h]
  exact mainBody2go_getEf env s tr

theorem mainBody2_trace_ne_nil (env : InitEnv) (s : AppState) (tr : List Ev)
    (h : s.ef = none ∨ s.embeddingFunction = none) :
    (mainBody2 env s tr).trace ≠ [] := by
  cases hef : s.ef with
  | none =>
    obtain ⟨u, hu⟩ := mainBody2_getEf env s tr hef
    rw [hu]
    simp
  | some m =>
    have h3 : mainBody2 env s tr = mainBody3 env s tr := by
      rw [mainBody2, hef]
      rfl
    obtain ⟨u, hu⟩ := mainBody3_wrap env s tr m hef
    rw [h3, hu]
    simp

theorem main_trace_ne_nil (env : InitEnv) (s : AppState)
    (h : s.ef = none ∨ s.embeddingFunction = none) :
    (mainBody env s).trace ≠ [] := by
  unfold mainBody
  split
  · split
    · simp [Run.trace]
    · exact mainBody2_trace_ne_nil env s [.patch] h
  · exact mainBody2_trace_ne_nil env s [] h

theorem ensure_init_trace_ne_nil (env : InitEnv) (s : AppState)
    (h : s.embeddingFunction = none ∨ s.ef = none) (s2 : AppState) (tr : List Ev)
    (hrun : ensure_embedding_function env s = .ok (s2, tr)) : tr ≠ [] := by
  have h2 : s.ef = none ∨ s.embeddingFunction = none := h.symm
  unfold ensure_embedding_function at hrun
  rw [if_pos h] at hrun
  cases hmb : mainBody env s with
  | ok s3 tr3 =>
    rw [hmb] at hrun
    have htr : tr = tr3 := by
      injection hrun with h1
      exact (congrArg Prod.snd h1).symm
    have hne := main_trace_ne_nil env s h2
    rw [hmb] at hne
    rw [htr]
    exact hne
  | raised s3 tr3 =>
    rw [hmb] at hrun
    cases hfb : env.fallbackModelResult with
    | ok m =>
      rw [hfb] at hrun
      have htr : tr = tr3 ++ [.fallbackModel] := by
        injection hrun with h1
        exact (congrArg Prod.snd h1).symm
      rw [htr]
      simp
    | error u =>
      rw [hfb] at hrun
      cases hrun

/-! ### Concrete environments and states used by witnesses -/

/-- A local-engine environment whose primary construction returns no
model and whose other collaborators succeed. -/
def envLocalFail : InitEnv :=
  { engine := ""
    patchResult := .ok true
    getEfResult := .ok none
    fallbackModelResult := .ok 7
    getEmbeddingFunctionResult := fun m => .ok (m + 100)
    hasEncode := fun _ => true
    directWrap := fun m => m + 200
    fallbackWrap := fun m => m + 300 }

/-- An environment in which `get_ef` raises and even the
fallback-model import raises. -/
def envAllFail : InitEnv :=
  { engine := "openai"
    patchResult := .ok true
    getEfResult := .error ()
    fallbackModelResult := .error ()
    getEmbeddingFunctionResult := fun _ => .error ()
    hasEncode := fun _ => false
    directWrap := fun m => m
    fallbackWrap := fun m => m }

/-- A state with both slots already populated. -/
def sReady : AppState := ⟨some 5, some 9⟩

/-! ### Claims about the initializer -/

/-- C3, the claim as stated: with a local engine and empty slots, when
primary construction fails the patch shim is applied only after that
failure and primary construction is retried once, so the successful run
makes two `get_ef` calls, in the order
`get_ef`, `patch`, `get_ef`. -/
def retryAfterPatchClaim : Prop :=
  ∀ (env : InitEnv) (s : AppState),
    env.engine = "" → s.ef = none → s.embeddingFunction = none →
    env.getEfResult = .ok none →
    ∀ s2 tr, ensure_embedding_function env s = .ok (s2, tr) →
      tr.count .getEf = 2 ∧ tr.take 3 = [.getEf, .patch, .getEf]

/-- C3 counterexample: in `envLocalFail` the run calls `get_ef` exactly
once and applies the patch shim before it, refuting the claimed
patch-then-retry order. -/
theorem no_retry_counterexample : ¬ retryAfterPatchClaim := by
  intro hclaim
  have hrun : ensure_embedding_function envLocalFail ⟨none, none⟩ =
      .ok (⟨some 7, some 107⟩, [.patch, .getEf, .fallbackModel, .wrap]) := rfl
  have h := hclaim envLocalFail ⟨none, none⟩ rfl rfl rfl rfl
    ⟨some 7, some 107⟩ [.patch, .getEf, .fallbackModel, .wrap] hrun
  exact absurd h.1 (by decide)

/-- C3 (amended): when the engine indicates the local path and both
slots are empty, the patch shim is applied before the single primary
construction attempt; there is no retry — if `get_ef` returns no model
the hash fallback model is constructed immediately, and the run makes
exactly one `get_ef` call, with the trace
`[patch, get_ef, fallback-model, wrap]`. -/
theorem patch_before_single_primary_attempt (env : InitEnv)
    (sEF : Option EmbFunc) (b : Bool) (m : EmbModel) (f : EmbFunc)
    (heng : env.engine = "")
    (hpatch : env.patchResult = .ok b)
    (hget : env.getEfResult = .ok none)
    (hfb : env.fallbackModelResult = .ok m)
    (hwrap : env.getEmbeddingFunctionResult m = .ok f) :
    ensure_embedding_function env ⟨none, sEF⟩ =
      .ok (⟨some m, some f⟩, [.patch, .getEf, .fallbackModel, .wrap]) := by
  unfold ensure_embedding_function mainBody mainBody2 mainBody2go mainBody3
    mainBody3go mainBody4 mainBody4go
  simp [heng, hpatch, hget, hfb, hwrap]

/-- Witness for C3's amended theorem in `envLocalFail`. -/
theorem patch_before_single_primary_attempt_witness :
    ensure_embedding_function envLocalFail ⟨none, none⟩ =
      .ok (⟨some 7, some 107⟩, [.patch, .getEf, .fallbackModel, .wrap]) :=
  patch_before_single_primary_attempt envLocalFail none true 7 107
    rfl rfl rfl rfl rfl

/-- C4: with both state slots populated, `ensure_embedding_function`
returns success immediately: the state is unchanged and no collaborator
is called (empty trace). -/
theorem ensure_noop_when_ready (env : InitEnv) (s : AppState)
    (m : EmbModel) (f : EmbFunc)
    (hef : s.ef = some m) (hEF : s.embeddingFunction = some f) :
    ensure_embedding_function env s = .ok (s, []) := by
  unfold ensure_embedding_function
  rw [if_neg]
  rw [hef, hEF]
  simp

/-- Witness for C4 at a concrete populated state. -/
theorem ensure_noop_when_ready_witness :
    ensure_embedding_function envLocalFail sReady = .ok (sReady, []) :=
  ensure_noop_when_ready envLocalFail sReady 5 9 rfl rfl

/-- C5: `ensure_embedding_function` returns success in every case
except that it returns the HTTP 500 error exactly when the `try` body
raised and the fallback-model construction in the recovery handler
itself raises. -/
theorem ensure_total_except_fallback_raise (env : InitEnv) (s : AppState) :
    ((∃ out, ensure_embedding_function env s = .ok out) ∨
      ensure_embedding_function env s = .error 500) ∧
    (ensure_embedding_function env s = .error 500 ↔
      ((s.embeddingFunction = none ∨ s.ef = none) ∧ mainRaised env s ∧
        env.fallbackModelResult = .error ())) := by
  unfold ensure_embedding_function mainRaised
  by_cases hcond : s.embeddingFunction = none ∨ s.ef = none
  · rw [if_pos hcond]
    cases hmb : mainBody env s with
    | ok s2 tr => simp [hmb]
    | raised s2 tr =>
      cases hfb : env.fallbackModelResult with
      | ok m => simp [hfb]
      | error u => cases u; simp [hfb, hcond]
  · rw [if_neg hcond]
    constructor
    · exact Or.inl ⟨_, rfl⟩
    · simp [hcond]

/-- Witness for C5: success in `envLocalFail` from empty state, and the
500 error when everything, the fallback import included, raises. -/
theorem ensure_total_except_fallback_raise_witness :
    ((∃ out, ensure_embedding_function envLocalFail ⟨none, none⟩ = .ok out) ∨
      ensure_embedding_function envLocalFail ⟨none, none⟩ = .error 500) ∧
    ensure_embedding_function envAllFail ⟨none, none⟩ = .error 500 :=
  ⟨(ensure_total_except_fallback_raise envLocalFail ⟨none, none⟩).1, rfl⟩

/-- C10: the initializer skips reconstruction (an immediate success
with empty trace and unchanged state) exactly when both slots are
populated; when `EMBEDDING_FUNCTION` is populated but `ef` is `None`
the full initialization runs again and can overwrite the existing
`EMBEDDING_FUNCTION`. -/
theorem ensure_skips_only_when_both_slots (env : InitEnv) (s : AppState) :
    ((∃ s2, ensure_embedding_function env s = .ok (s2, [])) ↔
      (s.ef ≠ none ∧ s.embeddingFunction ≠ none)) ∧
    (∃ (env2 : InitEnv) (s0 s2 : AppState) (tr : List Ev) (f g : EmbFunc),
      s0.embeddingFunction = some f ∧ s0.ef = none ∧
      ensure_embedding_function env2 s0 = .ok (s2, tr) ∧
      s2.embeddingFunction = some g ∧ g ≠ f) := by
  constructor
  · constructor
    · rintro ⟨s2, h⟩
      by_cases hef : s.ef = none
      · exact absurd rfl
          (ensure_init_trace_ne_nil env s (Or.inr hef) s2 [] h)
      · by_cases hEF : s.embeddingFunction = none
        · exact absurd rfl
            (ensure_init_trace_ne_nil env s (Or.inl hEF) s2 [] h)
        · exact ⟨hef, hEF⟩
    · rintro ⟨hef, hEF⟩
      refine ⟨s, ?_⟩
      unfold ensure_embedding_function
      rw [if_neg]
      simp [hEF, hef]
  · refine ⟨envLocalFail, ⟨none, some 99⟩, ⟨some 7, some 107⟩,
      [.patch, .getEf, .fallbackModel, .wrap], 99, 107, rfl, rfl, rfl, rfl, ?_⟩
    decide

/-- Witness for C10 at the already-populated state `sReady`. -/
theorem ensure_skips_only_when_both_slots_witness :
    ∃ s2, ensure_embedding_function envLocalFail sReady = .ok (s2, []) :=
  (ensure_skips_only_when_both_slots envLocalFail sReady).1.mpr
    (by constructor <;> simp [sReady])

/-! ### The patch shim (`st_patch.py`) and the module-level shim in
`fallback_embeddings.py`

`sys.modules['_lzma']` becomes an `Option LzmaModule` slot; the possible
registered values are the `backports.lzma` module or one of the two
`MockLZMA` stub classes (the one defined in `st_patch.py` and the one
defined at module level in `fallback_embeddings.py`). -/

/-- Which of the two `MockLZMA` classes a stub instance comes from. -/
inductive MockKind where
  | stPatch
  | fbModule
deriving DecidableEq

/-- A value registered under `sys.modules['_lzma']`. -/
inductive LzmaModule where
  | backports
  | mock (k : MockKind)
deriving DecidableEq

/-- Outcome of `import sentence_transformers` at line 46 of
`st_patch.py`: success, an `ImportError` (caught), or any other
exception (uncaught, so it propagates). -/
inductive ImportOutcome where
  | ok
  | importError
  | otherError
deriving DecidableEq

/-- Outcomes of the environment probes `patch_sentence_transformers`
makes: `find_spec`, the first `backports.lzma` import, the combined
pip-install-and-import of lines 29–33, and the final
`sentence_transformers` import. -/
structure PatchEnv where
  stFindSpec : Bool
  backportsImport : Bool
  pipInstall : Except Unit Unit
  stImport : ImportOutcome

/-- `patch_sentence_transformers` (lines 8–51): returns early when
`sentence_transformers` is not installed; otherwise fills the `_lzma`
slot only when it is empty (backports, then pip install, then the
`MockLZMA` stub as last resort), then imports `sentence_transformers`.
The result pairs the Python return value (or a raise) with the final
`_lzma` registry slot. -/
def patch_sentence_transformers (env : PatchEnv) (lzma : Option LzmaModule) :
    Except Unit Bool × Option LzmaModule :=
  if env.stFindSpec = false then (.ok false, lzma)
  else
    let lzma2 := match lzma with
      | some m => some m
      | none =>
        if env.backportsImport then some .backports
        else
          match env.pipInstall with
          | .ok _ => some .backports
          | .error _ => some (.mock .stPatch)
    match env.stImport with
    | .ok => (Except.ok true, lzma2)
    | .importError => (Except.ok false, lzma2)
    | .otherError => (Except.error (), lzma2)

/-- A minimal Python value universe for the stub's callables. -/
inductive PyValue where
  | pyNone
  | pyNat (n : Nat)
  | pyStr (s : String)
deriving DecidableEq

/-- What one attribute access on a stub returns: the warnings it logs
and the attribute value (a callable), `none` standing for an
`AttributeError`. -/
structure GetattrOutcome where
  warnings : List String
  attrFn : Option (List PyValue → PyValue)

/-- `__getattr__` of the two `MockLZMA` classes: `st_patch.py`
lines 37–39 return a no-op callable and log nothing;
`fallback_embeddings.py` lines 18–21 log one warning and return a no-op
callable. -/
def mockGetattr : MockKind → String → GetattrOutcome
  | .stPatch, _ => ⟨[], some (fun _ => .pyNone)⟩
  | .fbModule, name =>
      ⟨["Mock _lzma." ++ name ++ " was called"], some (fun _ => .pyNone)⟩

/-- The module-level `_lzma` shim of `fallback_embeddings.py`
lines 11–24: when the slot is empty, register backports if importable,
else the logging `MockLZMA`. -/
def fbModuleLzmaInit (backportsOk : Bool) (lzma : Option LzmaModule) :
    Option LzmaModule :=
  match lzma with
  | some m => some m
  | none => if backportsOk then some .backports else some (.mock .fbModule)

theorem patchST_preserves (env : PatchEnv) (m : LzmaModule) :
    (patch_sentence_transformers env (some m)).2 = some m := by
  unfold patch_sentence_transformers
  split
  · rfl
  · cases env.stImport <;> rfl

theorem patchST_registers (env : PatchEnv) (h : env.stFindSpec = true) :
    ∃ m, (patch_sentence_transformers env none).2 = some m := by
  unfold patch_sentence_transformers
  rw [if_neg (by simp [h])]
  cases env.backportsImport <;> cases hp : env.pipInstall <;>
    cases env.stImport <;> exact ⟨_, rfl⟩

/-- C8: an entry already registered under `'_lzma'` is left unchanged by
any call of `patch_sentence_transformers`; in particular, after a first
call (with `sentence_transformers` installed) has registered an entry,
a second call leaves that entry unchanged. -/
theorem patch_idempotent_on_lzma :
    (∀ (env : PatchEnv) (m : LzmaModule),
      (patch_sentence_transformers env (some m)).2 = some m) ∧
    (∀ env1 env2 : PatchEnv, env1.stFindSpec = true →
      (patch_sentence_transformers env2
          (patch_sentence_transformers env1 none).2).2 =
        (patch_sentence_transformers env1 none).2) := by
  refine ⟨patchST_preserves, fun env1 env2 h1 => ?_⟩
  obtain ⟨m, hm⟩ := patchST_registers env1 h1
  rw [hm]
  exact patchST_preserves env2 m

/-- The environment in which the stub is registered as last resort:
`sentence_transformers` installed, `backports.lzma` missing, pip
install failing, final import failing with `ImportError`. -/
def penvLastResort : PatchEnv := ⟨true, false, .error (), .importError⟩

/-- An environment where everything succeeds. -/
def penvAllOk : PatchEnv := ⟨true, true, .ok (), .ok⟩

/-- Witness for C8: a second call after the last-resort registration
leaves the `'_lzma'` entry unchanged. -/
theorem patch_idempotent_on_lzma_witness :
    (patch_sentence_transformers penvAllOk
        (patch_sentence_transformers penvLastResort none).2).2 =
      (patch_sentence_transformers penvLastResort none).2 :=
  patch_idempotent_on_lzma.2 penvLastResort penvAllOk rfl

/-- C9, the claim as stated: whenever `patch_sentence_transformers` has
registered its stub as the last-resort shim, every attribute access on
that stub logs a warning and yields a no-op callable returning `None`. -/
def stubLogsOnAccessClaim : Prop :=
  ∀ (env : PatchEnv) (name : String),
    (patch_sentence_transformers env none).2 = some (.mock .stPatch) →
    (mockGetattr .stPatch name).warnings ≠ [] ∧
    ∃ fn, (mockGetattr .stPatch name).attrFn = some fn ∧
      ∀ args, fn args = .pyNone

/-- C9 counterexample: in the last-resort environment the registered
stub is the `st_patch.py` `MockLZMA`, and accessing its attribute
`"open"` logs no warning at all. -/
theorem stub_access_logs_nothing_counterexample : ¬ stubLogsOnAccessClaim := by
  intro h
  exact (h penvLastResort "open" rfl).1 rfl

/-- C9 (amended): the stub registered as last resort by
`patch_sentence_transformers` is the `st_patch.py` `MockLZMA`, whose
every attribute access yields a no-op callable returning `None` — so
the dependent import raises neither `ModuleNotFoundError` nor
`AttributeError` — but logs nothing; the warning-per-access behaviour
belongs to the module-level stub of `fallback_embeddings.py`. -/
theorem stub_noop_callable_and_logging :
    (∀ env : PatchEnv, env.stFindSpec = true → env.backportsImport = false →
      env.pipInstall = .error () →
      (patch_sentence_transformers env none).2 = some (.mock .stPatch)) ∧
    (∀ name : String, (mockGetattr .stPatch name).warnings = [] ∧
      ∃ fn, (mockGetattr .stPatch name).attrFn = some fn ∧
        ∀ args, fn args = .pyNone) ∧
    (∀ name : String,
      (mockGetattr .fbModule name).warnings =
        ["Mock _lzma." ++ name ++ " was called"] ∧
      ∃ fn, (mockGetattr .fbModule name).attrFn = some fn ∧
        ∀ args, fn args = .pyNone) ∧
    fbModuleLzmaInit false none = some (.mock .fbModule) := by
  refine ⟨fun env h1 h2 h3 => ?_, fun name => ⟨rfl, ⟨_, rfl, fun args => rfl⟩⟩,
    fun name => ⟨rfl, ⟨_, rfl, fun args => rfl⟩⟩, rfl⟩
  unfold patch_sentence_transformers
  rw [if_neg (by simp [h1])]
  rw [h2, h3]
  cases env.stImport <;> rfl

/-- Witness for C9's amended theorem in the last-resort environment. -/
theorem stub_noop_callable_and_logging_witness :
    (patch_sentence_transformers penvLastResort none).2 =
      some (.mock .stPatch) :=
  stub_noop_callable_and_logging.1 penvLastResort rfl rfl rfl

/-! ### `try_external_embeddings` (`fallback_embeddings.py`, lines 74–97)

The HTTP layer is abstracted: the outcome of `requests.post` is an
`Option HttpResponse` (`none` when the request raises, e.g. on a
timeout); `raise_for_status` is modelled as raising exactly on a status
outside the 2xx range; `response.json()` is an `Except` (error when the
body is malformed), and a JSON object is an association list.  The
catch-all `except Exception` makes the embedded function total: every
failure path returns `none` instead of propagating. -/

/-- An HTTP response: status code and parsed JSON body. -/
structure HttpResponse where
  status : Nat
  jsonBody : Except Unit (List (String × List (List ℚ)))

/-- `try_external_embeddings(text, api_url)` with the network outcome
supplied as `net`.  An absent or empty (falsy) `api_url` short-circuits
to `None`; otherwise any request error, error status, malformed body or
missing `"embeddings"` key yields `None`, and a present `"embeddings"`
key yields its value. -/
def try_external_embeddings (text : TextInput) (api_url : Option String)
    (net : Option HttpResponse) : Option (List (List ℚ)) :=
  match api_url with
  | none => none
  | some u =>
    if u = "" then none
    else
      match net with
      | none => none
      | some resp =>
        if resp.status < 200 ∨ 300 ≤ resp.status then none
        else
          match resp.jsonBody with
          | .error _ => none
          | .ok body =>
            match body.lookup "embeddings" with
            | some v => some v
            | none => none

/-- C7: `try_external_embeddings` returns `None` (and, being a total
function, never raises) when the URL is absent, when the request
errors, when the status is not 2xx, or when the JSON body is malformed
or lacks the key `"embeddings"`; when a 2xx response carries the key
`"embeddings"`, it returns that value. -/
theorem try_external_embeddings_cases :
    (∀ text net, try_external_embeddings text none net = none) ∧
    (∀ text u, try_external_embeddings text (some u) none = none) ∧
    (∀ text u resp, resp.status < 200 ∨ 300 ≤ resp.status →
      try_external_embeddings text (some u) (some resp) = none) ∧
    (∀ text u resp, u ≠ "" → 200 ≤ resp.status → resp.status < 300 →
      resp.jsonBody = .error () →
      try_external_embeddings text (some u) (some resp) = none) ∧
    (∀ text u resp body, u ≠ "" → 200 ≤ resp.status → resp.status < 300 →
      resp.jsonBody = .ok body → body.lookup "embeddings" = none →
      try_external_embeddings text (some u) (some resp) = none) ∧
    (∀ text u resp body v, u ≠ "" → 200 ≤ resp.status → resp.status < 300 →
      resp.jsonBody = .ok body → body.lookup "embeddings" = some v →
      try_external_embeddings text (some u) (some resp) = some v) := by
  refine ⟨fun text net => rfl, fun text u => ?_, fun text u resp h => ?_,
    fun text u resp hu h1 h2 hj => ?_, fun text u resp body hu h1 h2 hj hl => ?_,
    fun text u resp body v hu h1 h2 hj hl => ?_⟩
  · by_cases hu : u = "" <;> simp [try_external_embeddings, hu]
  · by_cases hu : u = "" <;> simp [try_external_embeddings, hu, h]
  · simp [try_external_embeddings, hu, hj,
      show ¬(resp.status < 200 ∨ 300 ≤ resp.status) from by omega]
  · simp [try_external_embeddings, hu, hj, hl,
      show ¬(resp.status < 200 ∨ 300 ≤ resp.status) from by omega]
  · simp [try_external_embeddings, hu, hj, hl,
      show ¬(resp.status < 200 ∨ 300 ≤ resp.status) from by omega]

/-- A 2xx response whose body holds an `"embeddings"` value. -/
def respOk : HttpResponse := ⟨200, .ok [("embeddings", [[(1 : ℚ)]])]⟩

/-- A server-error response. -/
def respErr : HttpResponse := ⟨503, .ok [("embeddings", [[(1 : ℚ)]])]⟩

/-- Witness for C7: a concrete 2xx response with the key returns its
value, and a concrete 503 response returns `None`. -/
theorem try_external_embeddings_cases_witness :
    try_external_embeddings (.str "q") (some "http://emb") (some respOk) =
      some [[(1 : ℚ)]] ∧
    try_external_embeddings (.str "q") (some "http://emb") (some respErr) =
      none :=
  ⟨try_external_embeddings_cases.2.2.2.2.2 (.str "q") "http://emb" respOk
      [("embeddings", [[(1 : ℚ)]])] [[(1 : ℚ)]]
      (by decide) (by decide) (by decide) rfl rfl,
    try_external_embeddings_cases.2.2.1 (.str "q") "http://emb" respErr
      (by decide)⟩
